import Mathlib

/-!
Verification of the cmeow project-configuration schema and build-staleness
engine, shallowly embedded from the Python sources.  The canonical revision
embedded here is `util/_keys.py`, `util/_key_validators.py`, `util/_misc.py`,
`util/_enum.py` and `command/_command.py` (the repository also carries older
historical revisions of the same modules; the claims cite the files above).

Conventions of the embedding:
* TOML scalar values decoded by the `toml` library (Python objects) are the
  type `TomlV`; a decoded file is an association list in document order,
  mirroring a Python `dict` (insertion ordered, unique keys after decoding).
* `perr(msg, code)` prints and calls `sys.exit(code)`; it is embedded as an
  `Except.error (VErr.report code msg)` that aborts the computation.
* A Python exception that no handler catches (e.g. `TypeError` escaping
  `validate_type`, which only catches `ValueError`) is `VErr.uncaught`.
* `pwarn` does not abort; warnings are accumulated in a list, in print order.
* Python `datetime` instants are embedded as `Int` seconds relative to the
  Unix epoch (order-isomorphic to aware datetimes, which is all the code
  uses); `datetime.min.replace(tzinfo=UTC)` is `dt_min_utc`.
* Filesystem state is embedded as the list of regular files (path, mtime)
  and the list of directories under the project root; paths are segment
  lists relative to the project root.
-/

deriving instance DecidableEq for Except

namespace Cmeow

/-- `util/_enum.py` `ExitCode(IntEnum)`; `auto()` numbers members from 1
in declaration order. -/
inductive ExitCode where
  | SUCCESS
  | FAILURE
  | KB_INT
  | INVALID_CMD
  | INVALID_ARGS
  | PROJ_EXISTS
  | DIR_EXISTS
  | CANNOT_CREATE_PROJ
  | PROJ_NOT_EXISTS
  | INVALID_KEY_TYPE
  | INVALID_KEY_VAL
  | DUPLICATE_KEYS
  | MISSING_KEYS
  | DIR_NOT_EXISTS
  deriving DecidableEq, Repr

/-- `util/_enum.py` `BuildType(StrEnum)` with values "debug"/"release". -/
inductive BuildType where
  | debug
  | release
  deriving DecidableEq, Repr

/-- `BuildType.opposite` (`util/_enum.py` lines 18-19), translated verbatim:
`return BuildType.DEBUG if self == BuildType.DEBUG else BuildType.RELEASE`. -/
def BuildType.opposite (b : BuildType) : BuildType :=
  if b = BuildType.debug then BuildType.debug else BuildType.release

/-- String value of a `BuildType` member (`StrEnum` value). -/
def BuildType.str : BuildType → String
  | .debug => "debug"
  | .release => "release"

/-- `datetime.min.replace(tzinfo=UTC)`, the "never built" sentinel written by
`ProjectKeys.from_toml`, as seconds relative to the Unix epoch: the number of
seconds from 0001-01-01T00:00:00Z to 1970-01-01T00:00:00Z, negated. -/
def dt_min_utc : Int := -62135596800

/-- A scalar value as decoded from the configuration file (or produced by a
validator): Python `str`, `int`, `bool`, `datetime` or `None`. -/
inductive TomlV where
  | str (s : String)
  | int (n : Int)
  | bool (b : Bool)
  | dt (t : Int)
  | pyNone
  deriving DecidableEq, Repr

/-- A top-level value of the decoded file: either a scalar or a sub-table of
scalars (the schema is two levels deep; deeper nesting is outside the model). -/
inductive TomlTop where
  | v (x : TomlV)
  | table (t : List (String × TomlV))
  deriving DecidableEq, Repr

/-- Python `str(value)` on an embedded scalar.  The rendering of `datetime`
abstracts Python's `str(datetime)` text; no claim depends on it. -/
def pyStr : TomlV → String
  | .str s => s
  | .int n => toString n
  | .bool b => if b then "True" else "False"
  | .dt t => "datetime<" ++ toString t ++ ">"
  | .pyNone => "None"

/-- Python `type(value).__name__` on an embedded scalar. -/
def pyTypeName : TomlV → String
  | .str _ => "str"
  | .int _ => "int"
  | .bool _ => "bool"
  | .dt _ => "datetime"
  | .pyNone => "NoneType"

/-- `Constant.project_file` (`util/_defaults.py`): `f".{program}-project"`. -/
def projectFile : String := ".cmeow-project"

/-- Modelled from the spec: `Constant.supported_stds` is referenced by
`util/_key_validators.py` but its definition is absent from the canonical
`_defaults.py` in src; the value mirrors `supported = (11, 14, 17, 20)` of the
CLI counterpart `util/_arg_parser/_types.py` and spec section 8. -/
def supported_stds : List Int := [11, 14, 17, 20]

/-- Modelled from the spec: `Constant.unsupported_stds` is absent from the
canonical `_defaults.py` in src; mirrors `not_supported = (98, 3)` of
`util/_arg_parser/_types.py` and the spec scenario rejecting `98`. -/
def unsupported_stds : List Int := [98, 3]

/-- Modelled from the spec: `Constant.cmeow_versions`, the set of generator
versions this tool produced (spec section 6: the tool-version group "must
match a generator version this tool produced").  Absent from src (as is
`cmeow/__init__.py` defining `__version__`); modelled as one version. -/
def cmeow_versions : List String := ["0.1.0"]

/-- Python `f"{n:02}"`: zero-pad to width 2 (only needed for non-negatives). -/
def fmt02 (n : Int) : String :=
  let s := toString n
  if 0 ≤ n && s.length < 2 then "0" ++ s else s

/-- Python `f"{v:02}"` on a validated int-like value (`bool` formats via
`int.__format__`). -/
def fmtV02 : TomlV → String
  | .int n => fmt02 n
  | .bool b => fmt02 (if b then 1 else 0)
  | x => pyStr x

/-- Modelled from the spec: `join_choices` is imported by
`util/_key_validators.py` from `_console_io` but absent from the canonical
`_console_io.py` in src; mirrors `_join_choices` of
`util/_arg_parser/_types.py` with the `<ylw>` markup used by the validators. -/
def join_choices (l : List Int) : String :=
  "(" ++ String.intercalate ", " (l.map fun v => "<ylw>" ++ fmt02 v ++ "</ylw>") ++ ")"

/-- Split a character list at the first occurrence of `c`; `none` as second
component when `c` does not occur. -/
def splitFirst : List Char → Char → List Char × Option (List Char)
  | [], _ => ([], Option.none)
  | x :: xs, c =>
      if x = c then ([], some xs)
      else
        match splitFirst xs c with
        | (l, r) => (x :: l, r)

/-- Split a character list at every occurrence of `c` (structural recursion,
so that the kernel can evaluate it). -/
def splitAll : List Char → Char → List (List Char)
  | [], _ => [[]]
  | x :: xs, c =>
      let r := splitAll xs c
      if x = c then [] :: r
      else
        match r with
        | [] => [[x]]
        | y :: ys => (x :: y) :: ys

/-- A numeric component of a semver core: digits, no leading zero. -/
def semverNumOk (s : List Char) : Bool :=
  !s.isEmpty && s.all Char.isDigit && (s.length == 1 || s.head? != some '0')

/-- A pre-release identifier: nonempty, alphanumeric or hyphen, and numeric
identifiers have no leading zero. -/
def semverIdentOk (s : List Char) : Bool :=
  !s.isEmpty && s.all (fun c => c.isAlphanum || c == '-')
    && (!(s.all Char.isDigit) || s.length == 1 || s.head? != some '0')

/-- A build-metadata identifier: nonempty, alphanumeric or hyphen. -/
def semverBuildIdentOk (s : List Char) : Bool :=
  !s.isEmpty && s.all (fun c => c.isAlphanum || c == '-')

/-- Models `semver.VersionInfo.parse` succeeding on a string:
`major.minor.patch` with optional `-prerelease` and `+build` parts
(semver.org grammar). -/
def semverParses (s : String) : Bool :=
  let (left, build) := splitFirst s.data '+'
  let (core, pre) := splitFirst left '-'
  (match splitAll core '.' with
   | [ma, mi, pa] => semverNumOk ma && semverNumOk mi && semverNumOk pa
   | _ => false)
  && (match pre with
      | Option.none => true
      | some p => (splitAll p '.').all semverIdentOk)
  && (match build with
      | Option.none => true
      | some b => (splitAll b '.').all semverBuildIdentOk)

/-- The target-type argument of `Validator.validate_type`
(`util/_key_validators.py`): `str`, `int`, `datetime` or `SemverStr`. -/
inductive PyTy where
  | pstr
  | pint
  | pdt
  | semverStr
  deriving DecidableEq, Repr

/-- Python `isinstance(value, _type)` for the embedded scalars; note that
`bool` is a subclass of `int` in Python.  No decoded scalar is ever an
instance of the custom class `SemverStr`. -/
def isinstance : TomlV → PyTy → Bool
  | .str _, .pstr => true
  | .int _, .pint => true
  | .bool _, .pint => true
  | .dt _, .pdt => true
  | _, _ => false

/-- `_type.get_type_name()` when defined, else `_type.__name__`. -/
def tyName : PyTy → String
  | .pstr => "str"
  | .pint => "int"
  | .pdt => "datetime"
  | .semverStr => "semver str"

/-- `_type.get_type_info()` where the attribute exists (only `SemverStr`
defines it). -/
def tyInfo : PyTy → Option String
  | .semverStr => some "format = \x7bmajor\x7d.\x7bminor\x7d.\x7bpatch\x7d[-stage][+metadata]"
  | _ => Option.none

/-- Outcome of the conversion `_type(value)` attempted inside the `try` of
`validate_type`: success, a `ValueError` (the only exception caught), or an
exception of another class (escapes the handler). -/
inductive ConvErr where
  | valueError
  | typeError
  deriving DecidableEq, Repr

/-- Digits of a decimal numeral to a natural number; `none` when empty or a
non-digit occurs. -/
def natOfDigits (l : List Char) : Option Nat :=
  if l.isEmpty then Option.none
  else
    l.foldl
      (fun acc c =>
        match acc with
        | Option.none => Option.none
        | some n => if c.isDigit then some (n * 10 + (c.toNat - '0'.toNat)) else Option.none)
      (some 0)

/-- Python `int(s)` on a string (optional sign and digits, `ValueError`
otherwise), approximating CPython's parser for the inputs that occur here. -/
def pyIntOfStr (s : String) : Option Int :=
  match s.data with
  | '-' :: rest => (natOfDigits rest).map fun n => -(n : Int)
  | '+' :: rest => (natOfDigits rest).map fun n => (n : Int)
  | l => (natOfDigits l).map fun n => (n : Int)

/-- The conversion `_type(value)` of `validate_type`.
`str(value)` always succeeds; `int(str)` raises `ValueError` on a non-number
and `TypeError` on `None`/`datetime`; `datetime(x)` with one positional
argument always raises `TypeError`; `SemverStr(x)` calls
`VersionInfo.parse`, which raises `ValueError` on an unparsable string and
`TypeError` on a non-string. -/
def pyConvert : PyTy → TomlV → Except ConvErr TomlV
  | .pstr, v => .ok (.str (pyStr v))
  | .pint, .int n => .ok (.int n)
  | .pint, .bool b => .ok (.int (if b then 1 else 0))
  | .pint, .str s =>
      match pyIntOfStr s with
      | some n => .ok (.int n)
      | Option.none => .error .valueError
  | .pint, _ => .error .typeError
  | .pdt, _ => .error .typeError
  | .semverStr, .str s =>
      if semverParses s then .ok (.str s) else .error .valueError
  | .semverStr, _ => .error .typeError

/-- Structured stand-ins for the messages built at each `perr` call site of
the key-validation code; one constructor per f-string template, carrying the
interpolated data.  `Msg.text` renders the literal text. -/
inductive Msg where
  | invalidType (keyPath : String) (err_msg : Option String) (ty : PyTy) (got : TomlV)
  | stdUnsupported (keyPath : String) (ret : TomlV)
  | stdInvalid (keyPath : String) (ret : TomlV)
  | cmeowVersionInvalid (keyPath : String) (value : TomlV)
  | missingKeys (dottedNames : List String)
  deriving DecidableEq, Repr

/-- Renders each message template to its literal text, following the
f-strings of `util/_key_validators.py` and `util/_keys.py` (including the
source's missing closing backtick in the custom `err_msg` branch of
`validate_type`). -/
def Msg.text : Msg → String
  | .invalidType kp em ty got =>
      let core :=
        match em with
        | Option.none => "expected type `" ++ tyName ty ++ "`, but got `" ++ pyTypeName got ++ "`"
        | some m => m ++ ", but got `" ++ pyTypeName got
      let info :=
        match tyInfo ty with
        | some i => " (" ++ i ++ ")"
        | Option.none => ""
      "`" ++ projectFile ++ "`: key `" ++ kp ++ "`: " ++ core ++ info
  | .stdUnsupported kp ret =>
      "`" ++ projectFile ++ "`: key `" ++ kp ++ "`: std version <ylw>" ++ fmtV02 ret
        ++ "</ylw> is unsupported. choose from " ++ join_choices supported_stds
  | .stdInvalid kp ret =>
      "`" ++ projectFile ++ "`: key `" ++ kp ++ "`: std version <ylw>" ++ fmtV02 ret
        ++ "</ylw> is invalid. choose from " ++ join_choices supported_stds
  | .cmeowVersionInvalid kp value =>
      "`" ++ projectFile ++ "`: key `" ++ kp ++ "`: cmeow version " ++ pyStr value
        ++ " is invalid"
  | .missingKeys names =>
      "missing keys in " ++ projectFile ++ ": "
        ++ String.intercalate ", " (names.map fun k => "<ylw>" ++ k ++ "</ylw>")

/-- How a validation path terminates abnormally: `report` is `perr(msg, code)`
(message printed, process exits with `code`); `uncaught` is a Python
exception that no handler catches. -/
inductive VErr where
  | report (code : ExitCode) (msg : Msg)
  | uncaught (exc : String)
  deriving DecidableEq, Repr

/-- Result of a fallible validation step. -/
abbrev VRes (α : Type) := Except VErr α

/-- `Validator.validate_type` (`util/_key_validators.py` lines 26-55).
`kpre` is the source's `key_prefix` parameter. -/
def validate_type (key : String) (value : TomlV) (ty : PyTy) (kpre : String)
    (instance_check : Bool) (err_msg : Option String) : VRes TomlV :=
  if instance_check && isinstance value ty then
    .ok value
  else
    match pyConvert ty value with
    | .ok v => .ok v
    | .error .valueError =>
        .error (.report .INVALID_KEY_TYPE (.invalidType (kpre ++ key) err_msg ty value))
    | .error .typeError => .error (.uncaught "TypeError")

/-- `DatetimeValidator.validate`. -/
def DatetimeValidator.validate (key : String) (value : TomlV) (kpre : String) : VRes TomlV :=
  validate_type key value .pdt kpre true Option.none

/-- Membership test `ret in <tuple of ints>` on a validated value
(Python `bool` compares equal to 0/1). -/
def intMem (ret : TomlV) (l : List Int) : Bool :=
  match ret with
  | .int n => l.contains n
  | .bool b => l.contains (if b then 1 else 0)
  | _ => false

/-- `CmeowVersionValidator.validate`: semver conversion (no instance check)
then membership in the produced-versions set. -/
def CmeowVersionValidator.validate (key : String) (value : TomlV) (kpre : String) : VRes TomlV := do
  let ret ← validate_type key value .semverStr kpre false Option.none
  if !(match ret with | .str s => cmeow_versions.contains s | _ => false) then
    Except.error (.report .INVALID_KEY_VAL (.cmeowVersionInvalid (kpre ++ key) value))
  else
    Except.ok ret

/-- `CmakeVersionValidator.validate`: `validate_type(..., str,
instance_check=False)`, i.e. unconditional `str(value)` coercion. -/
def CmakeVersionValidator.validate (key : String) (value : TomlV) (kpre : String) : VRes TomlV :=
  validate_type key value .pstr kpre false Option.none

/-- `ProjectVersionValidator.validate`. -/
def ProjectVersionValidator.validate (key : String) (value : TomlV) (kpre : String) : VRes TomlV :=
  validate_type key value .semverStr kpre true Option.none

/-- `ProjectNameValidator.validate`. -/
def ProjectNameValidator.validate (key : String) (value : TomlV) (kpre : String) : VRes TomlV :=
  validate_type key value .pstr kpre true Option.none

/-- The literal (non-f-string) `err_msg` passed by `StdVersionValidator`:
the braces around "choices" are part of the source text, not interpolation. -/
def std_err_msg : String := "expected `int` value from \x7bchoices\x7d"

/-- `StdVersionValidator.validate` (`util/_key_validators.py` lines 106-122):
int type check, then the explicitly-unsupported check, then the supported
check; both value checks exit with `INVALID_KEY_VAL`. -/
def StdVersionValidator.validate (key : String) (value : TomlV) (kpre : String) : VRes TomlV := do
  let ret ← validate_type key value .pint kpre true (some std_err_msg)
  if intMem ret unsupported_stds then
    Except.error (.report .INVALID_KEY_VAL (.stdUnsupported (kpre ++ key) ret))
  else if !(intMem ret supported_stds) then
    Except.error (.report .INVALID_KEY_VAL (.stdInvalid (kpre ++ key) ret))
  else
    Except.ok ret

/-- `StrValidator.validate`. -/
def StrValidator.validate (key : String) (value : TomlV) (kpre : String) : VRes TomlV :=
  validate_type key value .pstr kpre true Option.none

/-- `ReadmeValidator.validate` (`util/_key_validators.py` lines 132-136):
`return str(value)` with no check and no failure path. -/
def ReadmeValidator.validate (_key : String) (value : TomlV) (_kpre : String) : VRes TomlV :=
  .ok (.str (pyStr value))

/-! ## The key-group schema (`util/_keys.py`) -/

/-- A Python type hint as inspected by `_KeyBase.__init_subclass__`:
either a plain type or a `UnionType` with its argument type names
(`NoneType` marking `| None`). -/
inductive PyHint where
  | plain (ty : String)
  | union (args : List String)
  deriving DecidableEq, Repr

/-- The test of `__init_subclass__` (`util/_keys.py` lines 61-66):
`isinstance(hint, UnionType) and NoneType in hint.__args__`. -/
def isNullableUnion : PyHint → Bool
  | .union args => args.contains "NoneType"
  | .plain _ => false

/-- The declared fields of `ProjectKeys` with their type hints
(`util/_keys.py` lines 142-147), in declaration order. -/
def project_hints : List (String × PyHint) :=
  [("last_build", .union ["datetime", "NoneType"]),
   ("name", .plain "str"),
   ("version", .plain "str"),
   ("description", .union ["str", "NoneType"]),
   ("readme", .union ["str", "NoneType"]),
   ("std", .plain "int")]

/-- The declared fields of `CmeowKeys` (`util/_keys.py` line 92). -/
def cmeow_hints : List (String × PyHint) := [("version", .plain "str")]

/-- The declared fields of `CmakeKeys` (`util/_keys.py` line 117). -/
def cmake_hints : List (String × PyHint) := [("version", .plain "str")]

/-- The declared fields of `DependenciesKeys` (none). -/
def dependencies_hints : List (String × PyHint) := []

/-- The declared fields of the root `Keys` group (`util/_keys.py` 198-201). -/
def keys_hints : List (String × PyHint) :=
  [("project", .plain "ProjectKeys"),
   ("dependencies", .plain "DependenciesKeys"),
   ("cmeow", .plain "CmeowKeys"),
   ("cmake", .plain "CmakeKeys")]

/-- `cls.__optional_fields__` as computed by `__init_subclass__`. -/
def optional_fields (hints : List (String × PyHint)) : List String :=
  (hints.filter fun kv => isNullableUnion kv.2).map Prod.fst

/-- `cls.__required_fields__` as computed by `__init_subclass__`. -/
def required_fields (hints : List (String × PyHint)) : List String :=
  (hints.filter fun kv => !(isNullableUnion kv.2)).map Prod.fst

/-- `cls.__dataclass_fields__` in declaration order. -/
def field_names (hints : List (String × PyHint)) : List String := hints.map Prod.fst

/-- The `keys` dict a `from_toml` classmethod accumulates: a Python dict
embedded as an insertion-ordered association list with unique keys. -/
abbrev KDict := List (String × TomlV)

/-- Python `key in keys`. -/
def dictContains (d : KDict) (k : String) : Bool :=
  d.any fun e => e.1 = k

/-- Python `keys.get(key)`. -/
def dictGet? (d : KDict) (k : String) : Option TomlV :=
  (d.find? fun e => e.1 = k).map Prod.snd

/-- Python `keys[key] = v`: replace in place when present, append otherwise. -/
def dictSet (d : KDict) (k : String) (v : TomlV) : KDict :=
  if dictContains d k then d.map fun e => if e.1 = k then (k, v) else e
  else d ++ [(k, v)]

/-- The `pwarn` text of `_check_unrecognized_key` (`util/_keys.py` 37-42). -/
def unrecognized_warning (key : String) : String :=
  "ignoring unrecognized key in `" ++ projectFile ++ "`: " ++ key

/-- The shared loop body of the `from_toml` classmethods (`util/_keys.py`,
e.g. lines 167-172): iterate the decoded items in document order; an
unrecognized key is warned about and skipped; a recognized key's value is
passed to that field's validator (a `perr` inside it aborts the parse) and
stored in the `keys` dict.  Parameterized by the group's field list and
validator table, which is how the classes differ. -/
def groupFromTomlAux (fields : List String) (validator : String → TomlV → VRes TomlV) :
    List (String × TomlV) → KDict → List String × Except VErr KDict
  | [], keys => ([], .ok keys)
  | (key, val) :: rest, keys =>
      if fields.contains key then
        match validator key val with
        | .ok v => groupFromTomlAux fields validator rest (dictSet keys key v)
        | .error e => ([], .error e)
      else
        let (w, r) := groupFromTomlAux fields validator rest keys
        (unrecognized_warning key :: w, r)

/-- `_check_missing_keys` (`util/_keys.py` lines 45-53): the required fields
not in `keys`; when nonempty, one `perr` listing every one with the dotted
prefix, exiting with `MISSING_KEYS`. -/
def check_missing_keys (hints : List (String × PyHint)) (keys : KDict) (kpre : String) :
    Option VErr :=
  let missing := (required_fields hints).filter fun k => !(dictContains keys k)
  if missing.isEmpty then Option.none
  else some (.report .MISSING_KEYS (.missingKeys (missing.map fun k => kpre ++ k)))

/-- The typed `ProjectKeys` dataclass: each field holds the Python value its
validator returned (the dataclass performs no further checks). -/
structure ProjectKeys where
  last_build : TomlV
  name : TomlV
  version : TomlV
  description : TomlV
  readme : TomlV
  std : TomlV
  deriving DecidableEq, Repr

/-- `cls(**keys)` for `ProjectKeys`: optional fields absent from the dict
receive the dataclass default `None`; a required field absent raises
`TypeError` (`none` here — unreachable after `_check_missing_keys`). -/
def buildProjectKeys (keys : KDict) : Option ProjectKeys :=
  match dictGet? keys "name", dictGet? keys "version", dictGet? keys "std" with
  | some nm, some ver, some st =>
      some { last_build := (dictGet? keys "last_build").getD .pyNone,
             name := nm, version := ver,
             description := (dictGet? keys "description").getD .pyNone,
             readme := (dictGet? keys "readme").getD .pyNone,
             std := st }
  | _, _, _ => Option.none

/-- The validator table of `ProjectKeys.get_validators`
(`util/_keys.py` lines 149-158), as the lookup `validators[key]` performed by
the loop (the final arm mirrors the `KeyError` a lookup of a non-field key
would raise; unreachable after the unrecognized-key check). -/
def projectValidator (key : String) (val : TomlV) : VRes TomlV :=
  if key = "last_build" then DatetimeValidator.validate key val "project."
  else if key = "name" then ProjectNameValidator.validate key val "project."
  else if key = "version" then ProjectVersionValidator.validate key val "project."
  else if key = "description" then StrValidator.validate key val "project."
  else if key = "readme" then ReadmeValidator.validate key val "project."
  else if key = "std" then StdVersionValidator.validate key val "project."
  else .error (.uncaught "KeyError")

/-- The tail of `ProjectKeys.from_toml` after the loop (`util/_keys.py` lines
174-178): default a missing `last_build` to `datetime.min.replace(tzinfo=UTC)`,
check missing required keys (one aggregated failure), construct the
dataclass. -/
def projectPost (keys0 : KDict) : Except VErr ProjectKeys :=
  let keys :=
    if dictContains keys0 "last_build" then keys0
    else dictSet keys0 "last_build" (.dt dt_min_utc)
  match check_missing_keys project_hints keys "project." with
  | some e => .error e
  | Option.none =>
      match buildProjectKeys keys with
      | some k => .ok k
      | Option.none => .error (.uncaught "TypeError")

/-- `ProjectKeys.from_toml` (`util/_keys.py` lines 160-178): run the loop,
then `projectPost`.  Returns the warnings printed (in order) alongside the
outcome. -/
def ProjectKeys.from_toml (kvs : List (String × TomlV)) :
    List String × Except VErr ProjectKeys :=
  match groupFromTomlAux (field_names project_hints) projectValidator kvs [] with
  | (w, .error e) => (w, .error e)
  | (w, .ok keys0) => (w, projectPost keys0)

/-- The typed `CmeowKeys` dataclass. -/
structure CmeowKeys where
  version : TomlV
  deriving DecidableEq, Repr

/-- `CmeowKeys.get_validators` lookup (`util/_keys.py` lines 94-96). -/
def cmeowValidator (key : String) (val : TomlV) : VRes TomlV :=
  if key = "version" then CmeowVersionValidator.validate key val "cmeow."
  else .error (.uncaught "KeyError")

/-- `cls(**keys)` for `CmeowKeys`. -/
def buildCmeowKeys (keys : KDict) : Option CmeowKeys :=
  match dictGet? keys "version" with
  | some v => some { version := v }
  | Option.none => Option.none

/-- The tail of `CmeowKeys.from_toml` after the loop. -/
def cmeowPost (keys : KDict) : Except VErr CmeowKeys :=
  match check_missing_keys cmeow_hints keys "cmeow." with
  | some e => .error e
  | Option.none =>
      match buildCmeowKeys keys with
      | some k => .ok k
      | Option.none => .error (.uncaught "TypeError")

/-- `CmeowKeys.from_toml` (`util/_keys.py` lines 98-112). -/
def CmeowKeys.from_toml (kvs : List (String × TomlV)) :
    List String × Except VErr CmeowKeys :=
  match groupFromTomlAux (field_names cmeow_hints) cmeowValidator kvs [] with
  | (w, .error e) => (w, .error e)
  | (w, .ok keys) => (w, cmeowPost keys)

/-- The typed `CmakeKeys` dataclass. -/
structure CmakeKeys where
  version : TomlV
  deriving DecidableEq, Repr

/-- `CmakeKeys.get_validators` lookup (`util/_keys.py` lines 119-121). -/
def cmakeValidator (key : String) (val : TomlV) : VRes TomlV :=
  if key = "version" then CmakeVersionValidator.validate key val "cmake."
  else .error (.uncaught "KeyError")

/-- `cls(**keys)` for `CmakeKeys`. -/
def buildCmakeKeys (keys : KDict) : Option CmakeKeys :=
  match dictGet? keys "version" with
  | some v => some { version := v }
  | Option.none => Option.none

/-- The tail of `CmakeKeys.from_toml` after the loop. -/
def cmakePost (keys : KDict) : Except VErr CmakeKeys :=
  match check_missing_keys cmake_hints keys "cmake." with
  | some e => .error e
  | Option.none =>
      match buildCmakeKeys keys with
      | some k => .ok k
      | Option.none => .error (.uncaught "TypeError")

/-- `CmakeKeys.from_toml` (`util/_keys.py` lines 123-137). -/
def CmakeKeys.from_toml (kvs : List (String × TomlV)) :
    List String × Except VErr CmakeKeys :=
  match groupFromTomlAux (field_names cmake_hints) cmakeValidator kvs [] with
  | (w, .error e) => (w, .error e)
  | (w, .ok keys) => (w, cmakePost keys)

/-- The (field-less) `DependenciesKeys` dataclass. -/
structure DependenciesKeys where
  deriving DecidableEq, Repr

/-- `DependenciesKeys.from_toml` (`util/_keys.py` lines 183-193): every input
key is unrecognized (the class declares no fields); the missing-keys check
passes vacuously. -/
def DependenciesKeys.from_toml (kvs : List (String × TomlV)) :
    List String × Except VErr DependenciesKeys :=
  (kvs.map fun e => unrecognized_warning e.1, .ok {})

/-- The root `Keys` dataclass (`util/_keys.py` lines 196-201). -/
structure Keys where
  project : ProjectKeys
  dependencies : DependenciesKeys
  cmeow : CmeowKeys
  cmake : CmakeKeys
  deriving DecidableEq, Repr

/-- The partially-filled `keys` dict of `Keys.from_toml`, whose values are
parsed sub-groups rather than scalars. -/
structure KeysDict where
  project : Option ProjectKeys
  dependencies : Option DependenciesKeys
  cmeow : Option CmeowKeys
  cmake : Option CmakeKeys
  deriving DecidableEq, Repr

/-- The empty dict `keys: KeysDict = {}`. -/
def KeysDict.init : KeysDict :=
  { project := Option.none, dependencies := Option.none,
    cmeow := Option.none, cmake := Option.none }

/-- Presence of a group name in the root dict. -/
def KeysDict.contains (d : KeysDict) (k : String) : Bool :=
  if k = "project" then d.project.isSome
  else if k = "dependencies" then d.dependencies.isSome
  else if k = "cmeow" then d.cmeow.isSome
  else if k = "cmake" then d.cmake.isSome
  else false

/-- The loop of `Keys.from_toml` (`util/_keys.py` lines 217-228): unrecognized
top-level keys are warned about and skipped; each recognized group key
delegates to that group's `from_toml` on its sub-table (a scalar value in a
group position raises `AttributeError` when `.items()` is called on it). -/
def Keys.fromTomlAux : List (String × TomlTop) → KeysDict →
    List String × Except VErr KeysDict
  | [], d => ([], .ok d)
  | (key, val) :: rest, d =>
      if (field_names keys_hints).contains key then
        match val with
        | .v _ => ([], .error (.uncaught "AttributeError"))
        | .table t =>
            if key = "project" then
              match ProjectKeys.from_toml t with
              | (w, .error e) => (w, .error e)
              | (w, .ok pk) =>
                  let (w2, r) := Keys.fromTomlAux rest { d with project := some pk }
                  (w ++ w2, r)
            else if key = "cmeow" then
              match CmeowKeys.from_toml t with
              | (w, .error e) => (w, .error e)
              | (w, .ok ck) =>
                  let (w2, r) := Keys.fromTomlAux rest { d with cmeow := some ck }
                  (w ++ w2, r)
            else if key = "cmake" then
              match CmakeKeys.from_toml t with
              | (w, .error e) => (w, .error e)
              | (w, .ok ck) =>
                  let (w2, r) := Keys.fromTomlAux rest { d with cmake := some ck }
                  (w ++ w2, r)
            else
              match DependenciesKeys.from_toml t with
              | (w, .error e) => (w, .error e)
              | (w, .ok dk) =>
                  let (w2, r) := Keys.fromTomlAux rest { d with dependencies := some dk }
                  (w ++ w2, r)
      else
        let (w, r) := Keys.fromTomlAux rest d
        (unrecognized_warning key :: w, r)

/-- The missing-group check of `Keys.from_toml` (`_check_missing_keys` with
`key_prefix=None`, i.e. an empty prefix: group names are listed undotted). -/
def keysMissing (d : KeysDict) : List String :=
  (required_fields keys_hints).filter fun k => !(d.contains k)

/-- `Keys.from_toml` (`util/_keys.py` lines 212-231). -/
def Keys.from_toml (kvs : List (String × TomlTop)) : List String × Except VErr Keys :=
  match Keys.fromTomlAux kvs KeysDict.init with
  | (w, .error e) => (w, .error e)
  | (w, .ok d) =>
      if keysMissing d = [] then
        match d.project, d.dependencies, d.cmeow, d.cmake with
        | some p, some dep, some cw, some ck =>
            (w, .ok { project := p, dependencies := dep, cmeow := cw, cmake := ck })
        | _, _, _, _ => (w, .error (.uncaught "TypeError"))
      else
        (w, .error (.report .MISSING_KEYS (.missingKeys (keysMissing d))))

/-- `_KeyBase.to_toml` on `ProjectKeys` (`util/_keys.py` lines 75-83):
`vars(self)` iterates the fields in dataclass declaration order. -/
def ProjectKeys.to_toml (p : ProjectKeys) : List (String × TomlV) :=
  [("last_build", p.last_build), ("name", p.name), ("version", p.version),
   ("description", p.description), ("readme", p.readme), ("std", p.std)]

/-- `to_toml` on `CmeowKeys`. -/
def CmeowKeys.to_toml (c : CmeowKeys) : List (String × TomlV) :=
  [("version", c.version)]

/-- `to_toml` on `CmakeKeys`. -/
def CmakeKeys.to_toml (c : CmakeKeys) : List (String × TomlV) :=
  [("version", c.version)]

/-- `to_toml` on `DependenciesKeys` (no fields). -/
def DependenciesKeys.to_toml (_d : DependenciesKeys) : List (String × TomlV) := []

/-- `to_toml` on the root `Keys`: nested `_KeyBase` values recurse. -/
def Keys.to_toml (k : Keys) : List (String × TomlTop) :=
  [("project", .table k.project.to_toml),
   ("dependencies", .table (DependenciesKeys.to_toml k.dependencies)),
   ("cmeow", .table k.cmeow.to_toml),
   ("cmake", .table k.cmake.to_toml)]

/-! ## Staleness detector and build orchestration
(`util/_misc.py`, `command/_command.py`) -/

/-- A filesystem path, as segments relative to the project root. -/
abbrev FPath := List String

/-- The filesystem state under the project root: the regular files with
their modification instants, and the directories. -/
structure ProjDir where
  files : List (FPath × Int)
  dirs : List FPath
  deriving DecidableEq, Repr

/-- `path.is_file()` under the project root. -/
def ProjDir.hasFile (d : ProjDir) (p : FPath) : Bool :=
  d.files.any fun fp => fp.1 = p

/-- `path.is_dir()` under the project root. -/
def ProjDir.hasDir (d : ProjDir) (p : FPath) : Bool :=
  d.dirs.any fun q => q = p

/-- `Constant.target_dir`: modelled from the spec (section 6 layout
`<root>/target/<profile>/...`); the definition is absent from the canonical
`_defaults.py` in src (whose older revision uses an `ArgDefault.target` of
the same value). -/
def target_dir : String := "target"

/-- `Constant.src_dir`: modelled from the spec (section 6 layout
`<root>/src`). -/
def src_dir : String := "src"

/-- `Constant.cmake_build_dir` (`util/_defaults.py`). -/
def cmake_build_dir : String := "cmake_build"

/-- `Constant.cmake_build_files`: modelled from the spec (glossary "marker
file" set); mirrors the file list of the older `_util.py` revision's
`cmake_files_exist`. -/
def cmake_build_files : List String := ["CMakeCache.txt", "cmake_install.cmake", "Makefile"]

/-- `Constant.cmake_build_dirs`: modelled from the spec; mirrors the
`CMakeFiles` directory of the older `_util.py` revision. -/
def cmake_build_dirs : List String := ["CMakeFiles"]

/-- `Constant.cmake_base_files`: modelled from the spec (section 6: "a
generated build-definition file for the underlying tool written into the
project root"). -/
def cmake_base_files : List String := ["CMakeLists.txt"]

/-- `proj_dir / Constant.target_dir / build_type / Constant.cmake_build_dir`
(`util/_misc.py` line 221). -/
def cmakeBuildDirPath (bt : BuildType) : FPath :=
  [target_dir, bt.str, cmake_build_dir]

/-- `cmake_files_exist` (`util/_misc.py` lines 220-229): all required marker
files are regular files and all required marker directories are directories,
for the requested profile. -/
def cmake_files_exist (d : ProjDir) (bt : BuildType) : Bool :=
  (cmake_build_files.all fun f => d.hasFile (cmakeBuildDirPath bt ++ [f]))
    && (cmake_base_files.all fun f => d.hasFile [f])
    && (cmake_build_dirs.all fun dir => d.hasDir (cmakeBuildDirPath bt ++ [dir]))

/-- `need_build` (`util/_misc.py` lines 264-274): recursively walk the whole
project tree; true iff some regular file's modification time is strictly
later than the recorded last build. -/
def need_build (d : ProjDir) (last_build : Int) : Bool :=
  d.files.any fun fp => last_build < fp.2

/-- `proj_dir / Constant.target_dir / args.build_type / keys.project.name`
(`command/_command.py` line 67), the expected executable path. -/
def exe_path (bt : BuildType) (name : String) : FPath :=
  [target_dir, bt.str, name]

/-- The `should_build` decision of `_build` (`command/_command.py` lines
63-69): reconfigure and build when the tool-state marker files are absent;
otherwise build when the expected executable is absent; otherwise build when
some file is newer than the recorded last build. -/
def must_build (d : ProjDir) (bt : BuildType) (exe_name : String) (last_build : Int) : Bool :=
  if !(cmake_files_exist d bt) then true
  else if !(d.hasFile (exe_path bt exe_name)) then true
  else need_build d last_build

/-- `update_project_file` (`util/_misc.py` lines 146-148): set
`keys.project.last_build` to the current UTC instant, then re-serialize the
whole configuration via `_write_project_file` (which dumps `keys.to_toml()`). -/
def update_project_file (now : Int) (keys : Keys) : Keys :=
  { keys with project := { keys.project with last_build := .dt now } }

/-- How one invocation of the `build` command terminates. -/
inductive BuildOutcome where
  | exited (code : ExitCode)
  | crash
  | done (did_init : Bool) (should_build : Bool) (unchanged_reported : Bool)
      (written : Option Keys)
  deriving DecidableEq, Repr

/-- `_build` (`command/_command.py` lines 55-84), given the already-loaded
configuration: compute `should_build` (running `init_cmake` when the marker
files are absent), exit `DIR_NOT_EXISTS` when the `src` directory is missing,
then either report "files unchanged" without touching the configuration file,
or run the build and rewrite the configuration through
`update_project_file`.  `crash` is the `TypeError` Python would raise if
`keys.project.name`/`last_build` held values of the wrong type (after
`from_toml` they are always `str`/`datetime`). -/
def buildCommand (d : ProjDir) (bt : BuildType) (keys : Keys) (now : Int) : BuildOutcome :=
  match keys.project.name, keys.project.last_build with
  | .str nm, .dt lb =>
      let did_init := !(cmake_files_exist d bt)
      let sb := must_build d bt nm lb
      if !(d.hasDir [src_dir]) then .exited .DIR_NOT_EXISTS
      else if sb then .done did_init true false (some (update_project_file now keys))
      else .done did_init false true Option.none
  | _, _ => .crash

/-- `touch`: modify one regular file in place so its modification instant
becomes `t` (every entry at that path is updated; other files, and the
directory set, are untouched). -/
def touch (d : ProjDir) (p : FPath) (t : Int) : ProjDir :=
  { d with files := d.files.map fun fp => if fp.1 = p then (fp.1, t) else fp }

/-! ## Concrete states and inputs used by counterexamples and witnesses -/

/-- A project whose debug-profile marker files are all present (mtime 0),
whose `src` directory exists, but whose expected executable `target/debug/app`
is absent. -/
def c1_state : ProjDir :=
  { files :=
      [(["target", "debug", "cmake_build", "CMakeCache.txt"], 0),
       (["target", "debug", "cmake_build", "cmake_install.cmake"], 0),
       (["target", "debug", "cmake_build", "Makefile"], 0),
       (["CMakeLists.txt"], 0)],
    dirs := [["target", "debug", "cmake_build", "CMakeFiles"], ["src"]] }

/-- `c1_state` with the expected executable also present (mtime 0). -/
def c1_exe_state : ProjDir :=
  { files := (["target", "debug", "app"], 0) :: c1_state.files,
    dirs := c1_state.dirs }

/-- A fully-parsed configuration with `name = "app"` and
`last_build = datetime 10`. -/
def c3_keys : Keys :=
  { project :=
      { last_build := .dt 10, name := .str "app", version := .str "0.1.0",
        description := .pyNone, readme := .str "README.md", std := .int 17 },
    dependencies := {},
    cmeow := { version := .str "0.1.0" },
    cmake := { version := .str "3.25" } }

/-- A decoded configuration file missing two required keys in two different
groups: `project.std` and `cmeow.version`. -/
def c4_input : List (String × TomlTop) :=
  [("project", .table [("name", .str "app"), ("version", .str "0.1.0")]),
   ("dependencies", .table []),
   ("cmeow", .table []),
   ("cmake", .table [("version", .str "3.25")])]

/-- The project sub-table of `c5_input`: schema-valid, with the optional
`description` field (legitimately) omitted. -/
def c5_proj_input : List (String × TomlV) :=
  [("last_build", .dt 100), ("name", .str "app"), ("version", .str "0.1.0"),
   ("readme", .str "README.md"), ("std", .int 17)]

/-- A schema-valid decoded configuration file omitting only the optional
`project.description`. -/
def c5_input : List (String × TomlTop) :=
  [("project", .table c5_proj_input),
   ("dependencies", .table []),
   ("cmeow", .table [("version", .str "0.1.0")]),
   ("cmake", .table [("version", .str "3.25")])]

/-- The parse of `c5_input`. -/
def c5_keys : Keys :=
  { project :=
      { last_build := .dt 100, name := .str "app", version := .str "0.1.0",
        description := .pyNone, readme := .str "README.md", std := .int 17 },
    dependencies := {},
    cmeow := { version := .str "0.1.0" },
    cmake := { version := .str "3.25" } }

/-- A project sub-table providing only the three required keys. -/
def c7_input : List (String × TomlV) :=
  [("name", .str "app"), ("version", .str "0.1.0"), ("std", .int 17)]

/-- The parse of `c7_input`: optional fields defaulted. -/
def c7_keys : ProjectKeys :=
  { last_build := .dt dt_min_utc, name := .str "app", version := .str "0.1.0",
    description := .pyNone, readme := .pyNone, std := .int 17 }

/-- `c7_input` with two unrecognized keys interleaved. -/
def c8_input : List (String × TomlV) :=
  [("name", .str "app"), ("wibble", .int 2), ("version", .str "0.1.0"),
   ("std", .int 17), ("zap", .bool true)]

/-! ## Lemmas about the filesystem model -/

/-- Touching a file changes no path: file presence is preserved. -/
theorem touch_hasFile (d : ProjDir) (p : FPath) (t : Int) (q : FPath) :
    (touch d p t).hasFile q = d.hasFile q := by
  simp only [touch, ProjDir.hasFile]
  induction d.files with
  | nil => rfl
  | cons fp rest ih =>
      by_cases h : fp.1 = p
      · simp [h, ih]
      · simp [h, ih]

/-- Touching a file leaves the directory set unchanged. -/
theorem touch_hasDir (d : ProjDir) (p : FPath) (t : Int) (q : FPath) :
    (touch d p t).hasDir q = d.hasDir q := rfl

/-- Touching a file does not change the tool-state marker check. -/
theorem touch_cmake_files_exist (d : ProjDir) (p : FPath) (t : Int) (bt : BuildType) :
    cmake_files_exist (touch d p t) bt = cmake_files_exist d bt := by
  simp only [cmake_files_exist, touch_hasFile, touch_hasDir]

/-- After touching an existing file to an instant later than `last_build`,
the source-freshness walk reports a needed rebuild. -/
theorem touch_need_build (d : ProjDir) (p : FPath) (t lb : Int)
    (hp : p ∈ d.files.map Prod.fst) (ht : lb < t) :
    need_build (touch d p t) lb = true := by
  simp only [need_build, touch, List.any_map, List.any_eq_true]
  rcases List.mem_map.mp hp with ⟨fp, hfp, hfpp⟩
  refine ⟨fp, hfp, ?_⟩
  simp only [Function.comp_apply, hfpp, if_pos]
  exact decide_eq_true ht

/-! ## Lemmas about the parsing loop and its dict -/

theorem any_key_map_set (d : KDict) (k0 k : String) (v : TomlV) :
    ((d.map fun e => if e.1 = k0 then (k0, v) else e).any fun e => e.1 = k)
      = d.any fun e => e.1 = k := by
  induction d with
  | nil => rfl
  | cons e rest ih =>
      simp only [List.map_cons, List.any_cons, ih]
      by_cases h : e.1 = k0
      · simp [h]
      · simp [h]

theorem dictContains_set (d : KDict) (k0 k : String) (v : TomlV) :
    dictContains (dictSet d k0 v) k = (dictContains d k || decide (k0 = k)) := by
  unfold dictSet
  by_cases h : dictContains d k0
  · rw [if_pos h]
    show ((d.map fun e => if e.1 = k0 then (k0, v) else e).any fun e => e.1 = k) = _
    rw [any_key_map_set]
    by_cases hk : k0 = k
    · have hdk : dictContains d k = true := hk ▸ h
      show dictContains d k = _
      simp [hdk]
    · simp [hk]
      rfl
  · rw [if_neg h]
    show ((d ++ [(k0, v)]).any fun e => e.1 = k) = _
    rw [List.any_append]
    simp [dictContains]

theorem groupAux_ok_contains (fields : List String) (validator : String → TomlV → VRes TomlV)
    (kvs : List (String × TomlV)) :
    ∀ (keys : KDict) (w : List String) (q : KDict),
      groupFromTomlAux fields validator kvs keys = (w, .ok q) →
      ∀ k, fields.contains k = true →
        dictContains q k = (dictContains keys k || kvs.any fun e => e.1 = k) := by
  induction kvs with
  | nil =>
      intro keys w q h k hk
      simp only [groupFromTomlAux, Prod.mk.injEq, Except.ok.injEq] at h
      rw [← h.2]
      simp
  | cons e rest ih =>
      intro keys w q h k hk
      obtain ⟨key, val⟩ := e
      simp only [groupFromTomlAux] at h
      by_cases hf : fields.contains key
      · rw [if_pos hf] at h
        cases hv : validator key val with
        | ok v =>
            simp only [hv] at h
            have := ih (dictSet keys key v) w q h k hk
            rw [this, dictContains_set]
            simp [List.any_cons, Bool.or_assoc]
        | error err =>
            simp only [hv] at h
            simp at h
      · rw [if_neg hf] at h
        rcases haux : groupFromTomlAux fields validator rest keys with ⟨w2, r⟩
        rw [haux] at h
        simp only [Prod.mk.injEq] at h
        obtain ⟨hw, hr⟩ := h
        cases r with
        | error err => simp at hr
        | ok q2 =>
            have hqq : q2 = q := by simpa using hr
            rw [hqq] at haux
            have := ih keys w2 q haux k hk
            rw [this]
            have hkey : decide (key = k) = false := by
              apply decide_eq_false
              intro hkk
              subst hkk
              rw [hk] at hf
              exact hf rfl
            simp [List.any_cons, hkey]


theorem find?_key_map_set_ne (d : KDict) (k0 k : String) (v : TomlV) (hne : k0 ≠ k) :
    ((d.map fun e => if e.1 = k0 then (k0, v) else e).find? fun e => e.1 = k)
      = d.find? fun e => e.1 = k := by
  induction d with
  | nil => rfl
  | cons e rest ih =>
      simp only [List.map_cons]
      by_cases h : e.1 = k0
      · rw [if_pos h]
        rw [List.find?_cons_of_neg _ (by simp [hne]), List.find?_cons_of_neg _ (by simp [h, hne])]
        exact ih
      · rw [if_neg h]
        by_cases hk : e.1 = k
        · rw [List.find?_cons_of_pos _ (by simp [hk]), List.find?_cons_of_pos _ (by simp [hk])]
        · rw [List.find?_cons_of_neg _ (by simp [hk]), List.find?_cons_of_neg _ (by simp [hk])]
          exact ih

theorem find?_map_set_self (d : KDict) (k : String) (v : TomlV) (h : dictContains d k = true) :
    ((d.map fun e => if e.1 = k then (k, v) else e).find? fun e => e.1 = k) = some (k, v) := by
  induction d with
  | nil => simp [dictContains] at h
  | cons e rest ih =>
      by_cases he : e.1 = k
      · rw [List.map_cons, if_pos he, List.find?_cons_of_pos _ (by simp)]
      · have h2 : dictContains rest k = true := by
          rw [dictContains, List.any_cons, decide_eq_false he, Bool.false_or] at h
          exact h
        rw [List.map_cons, if_neg he, List.find?_cons_of_neg _ (by simp [he])]
        exact ih h2

theorem find?_append_single_self (d : KDict) (k : String) (v : TomlV)
    (h : dictContains d k = false) :
    ((d ++ [(k, v)]).find? fun e => e.1 = k) = some (k, v) := by
  rw [List.find?_append]
  have h1 : (d.find? fun e => e.1 = k) = Option.none := by
    rw [List.find?_eq_none]
    intro x hx hxk
    have hc : dictContains d k = true := by
      rw [dictContains, List.any_eq_true]
      exact ⟨x, hx, hxk⟩
    rw [h] at hc
    exact Bool.false_ne_true hc
  rw [h1]
  simp

theorem dictGet?_set_self (d : KDict) (k : String) (v : TomlV) :
    dictGet? (dictSet d k v) k = some v := by
  unfold dictSet dictGet?
  by_cases h : dictContains d k
  · rw [if_pos h, find?_map_set_self d k v h]
    rfl
  · have h0 : dictContains d k = false := by
      cases hc : dictContains d k
      · rfl
      · exact absurd hc h
    rw [if_neg h, find?_append_single_self d k v h0]
    rfl

theorem dictGet?_set_ne (d : KDict) (k0 k : String) (v : TomlV) (hne : k0 ≠ k) :
    dictGet? (dictSet d k0 v) k = dictGet? d k := by
  unfold dictSet dictGet?
  by_cases h : dictContains d k0
  · rw [if_pos h, find?_key_map_set_ne d k0 k v hne]
  · rw [if_neg h, List.find?_append]
    have h1 : (List.find? (fun e => e.1 = k) [(k0, v)]) = Option.none := by
      simp [hne]
    rw [h1]
    simp

theorem groupAux_ok_get_absent (fields : List String) (validator : String → TomlV → VRes TomlV)
    (k : String) (kvs : List (String × TomlV)) :
    ∀ (keys : KDict) (w : List String) (q : KDict),
      groupFromTomlAux fields validator kvs keys = (w, .ok q) →
      (∀ e ∈ kvs, e.1 ≠ k) →
      dictGet? q k = dictGet? keys k := by
  induction kvs with
  | nil =>
      intro keys w q h _
      simp only [groupFromTomlAux, Prod.mk.injEq, Except.ok.injEq] at h
      rw [← h.2]
  | cons e rest ih =>
      intro keys w q h habs
      obtain ⟨key, val⟩ := e
      have hkey : key ≠ k := habs (key, val) (List.mem_cons_self _ _)
      have habs' : ∀ e ∈ rest, e.1 ≠ k := fun e he => habs e (List.mem_cons_of_mem _ he)
      simp only [groupFromTomlAux] at h
      by_cases hf : fields.contains key
      · rw [if_pos hf] at h
        cases hv : validator key val with
        | ok v =>
            simp only [hv] at h
            rw [ih (dictSet keys key v) w q h habs', dictGet?_set_ne keys key k v hkey]
        | error err =>
            simp only [hv] at h
            simp at h
      · rw [if_neg hf] at h
        rcases haux : groupFromTomlAux fields validator rest keys with ⟨w2, r⟩
        rw [haux] at h
        simp only [Prod.mk.injEq] at h
        obtain ⟨hw, hr⟩ := h
        cases r with
        | error err => simp at hr
        | ok q2 =>
            have hqq : q2 = q := by simpa using hr
            rw [hqq] at haux
            exact ih keys w2 q haux habs'

theorem groupAux_filter (fields : List String) (validator : String → TomlV → VRes TomlV)
    (kvs : List (String × TomlV)) :
    ∀ (keys : KDict) (q : KDict),
      groupFromTomlAux fields validator (kvs.filter fun e => fields.contains e.1) keys
        = ([], .ok q) →
      groupFromTomlAux fields validator kvs keys =
        ((kvs.filter fun e => !(fields.contains e.1)).map fun e => unrecognized_warning e.1,
         .ok q) := by
  induction kvs with
  | nil =>
      intro keys q h
      simp only [List.filter_nil, List.map_nil, groupFromTomlAux, Prod.mk.injEq,
        Except.ok.injEq, true_and] at h ⊢
      exact h
  | cons e rest ih =>
      intro keys q h
      obtain ⟨key, val⟩ := e
      by_cases hf : fields.contains key
      · have hfm : key ∈ fields := by simpa using hf
        have hfil : ((key, val) :: rest).filter (fun e => fields.contains e.1)
            = (key, val) :: rest.filter (fun e => fields.contains e.1) := by
          simp [List.filter_cons, hfm]
        rw [hfil] at h
        have hskip : ((key, val) :: rest).filter (fun e => !(fields.contains e.1))
            = rest.filter (fun e => !(fields.contains e.1)) := by
          simp [List.filter_cons, hfm]
        rw [hskip]
        simp only [groupFromTomlAux, if_pos hf] at h ⊢
        cases hv : validator key val with
        | ok v =>
            simp only [hv] at h ⊢
            exact ih (dictSet keys key v) q h
        | error err =>
            simp only [hv] at h
            simp at h
      · have hfm : key ∉ fields := by simpa using hf
        have hfil : ((key, val) :: rest).filter (fun e => fields.contains e.1)
            = rest.filter (fun e => fields.contains e.1) := by
          simp [List.filter_cons, hfm]
        rw [hfil] at h
        have hkeep : ((key, val) :: rest).filter (fun e => !(fields.contains e.1))
            = (key, val) :: rest.filter (fun e => !(fields.contains e.1)) := by
          simp [List.filter_cons, hfm]
        rw [hkeep]
        simp only [groupFromTomlAux, if_neg hf]
        rw [ih keys q h]
        simp [List.map_cons]


/-- An absent dict key is not contained. -/
theorem dictContains_false_of_get_none (d : KDict) (k : String)
    (h : dictGet? d k = Option.none) : dictContains d k = false := by
  rw [dictGet?] at h
  cases hf : d.find? (fun e => e.1 = k) with
  | some e => rw [hf] at h; simp at h
  | none =>
      have h0 := List.find?_eq_none.mp hf
      rw [dictContains, List.any_eq_false]
      intro x hx
      exact h0 x hx

/-! ## Claim theorems -/

/-- C1, counterexample: the claim as stated is false on the code.  In
`c1_state` the tool-state marker files are all present for the requested
(debug) profile and every regular file's modification time (0) is strictly
before the recorded last-build timestamp (10), yet the "must build" decision
is `true`, because `_build` additionally demands that the expected executable
`target/debug/<name>` exist (`command/_command.py` line 69), and it is
absent here. -/
theorem exe_absent_overrides_fresh_markers :
    cmake_files_exist c1_state .debug = true ∧
    (∀ f ∈ c1_state.files, f.2 < 10) ∧
    must_build c1_state .debug "app" 10 = true := by
  decide

/-- C1, amended: for every project whose tool-state marker files are all
present for the requested profile, whose expected executable exists, and
whose newest regular file's modification time is before the recorded
last-build timestamp, the "must build" decision is false; touching any single
regular file so its modification time is strictly later than the last-build
timestamp flips the decision to true. -/
theorem stale_decision_with_exe (d : ProjDir) (bt : BuildType) (nm : String) (lb : Int)
    (hm : cmake_files_exist d bt = true)
    (he : d.hasFile (exe_path bt nm) = true)
    (hold : ∀ f ∈ d.files, f.2 < lb) :
    must_build d bt nm lb = false ∧
    ∀ p t, p ∈ d.files.map Prod.fst → lb < t →
      must_build (touch d p t) bt nm lb = true := by
  have h1 : need_build d lb = false := by
    rw [need_build, List.any_eq_false]
    intro fp hfp
    simp only [decide_eq_true_eq, not_lt]
    exact le_of_lt (hold fp hfp)
  constructor
  · simp [must_build, hm, he, h1]
  · intro p t hp ht
    simp [must_build, touch_cmake_files_exist, hm, touch_hasFile, he,
      touch_need_build d p t lb hp ht]

/-- C1, witness for `stale_decision_with_exe` at `c1_exe_state`. -/
theorem stale_decision_with_exe_witness :
    must_build c1_exe_state .debug "app" 10 = false ∧
    must_build (touch c1_exe_state ["CMakeLists.txt"] 20) .debug "app" 10 = true := by
  have h := stale_decision_with_exe c1_exe_state .debug "app" 10
    (by decide) (by decide) (by decide)
  exact ⟨h.1, h.2 ["CMakeLists.txt"] 20 (by decide) (by decide)⟩

/-- C2: with the "never built" sentinel (`datetime.min` in UTC, which is
earlier than the timestamp of any real file) recorded as the last build, the
"must build" decision is true regardless of the tool-state marker files: if
they are absent the first branch forces it, and otherwise either the expected
executable is absent, or it is itself a regular file of the tree whose
modification time exceeds the sentinel. -/
theorem never_built_sentinel_forces_build (d : ProjDir) (bt : BuildType) (nm : String)
    (hreal : ∀ f ∈ d.files, dt_min_utc < f.2) :
    must_build d bt nm dt_min_utc = true := by
  unfold must_build
  cases hc : cmake_files_exist d bt with
  | false => simp
  | true =>
      simp only [Bool.not_true, Bool.false_eq_true, if_false]
      cases he : d.hasFile (exe_path bt nm) with
      | false => simp
      | true =>
          simp only [Bool.not_true, Bool.false_eq_true, if_false]
          rw [ProjDir.hasFile, List.any_eq_true] at he
          rcases he with ⟨fp, hfp, _⟩
          rw [need_build, List.any_eq_true]
          exact ⟨fp, hfp, decide_eq_true (hreal fp hfp)⟩

/-- C2, witness for `never_built_sentinel_forces_build` at `c1_state`
(markers present) — the decision is also true with markers absent, e.g. on
the empty tree, by the first branch. -/
theorem never_built_sentinel_forces_build_witness :
    must_build c1_state .debug "app" dt_min_utc = true :=
  never_built_sentinel_forces_build c1_state .debug "app" (by decide)

/-- C3: given a well-typed loaded configuration and an existing `src`
directory: when neither staleness check triggers, `_build` reports "files
unchanged" and does not rewrite the configuration file (the recorded
last-build value keeps its prior value); when a build occurs, the
configuration is rewritten as `update_project_file` produced it — with
`project.last_build` set to the current UTC instant and every other
configuration field unchanged. -/
theorem build_provenance_update (d : ProjDir) (bt : BuildType) (keys : Keys)
    (now : Int) (nm : String) (lb : Int)
    (hn : keys.project.name = .str nm) (hl : keys.project.last_build = .dt lb)
    (hs : d.hasDir [src_dir] = true) :
    (must_build d bt nm lb = false →
      buildCommand d bt keys now =
        .done (!(cmake_files_exist d bt)) false true Option.none) ∧
    (must_build d bt nm lb = true →
      buildCommand d bt keys now =
        .done (!(cmake_files_exist d bt)) true false (some (update_project_file now keys)) ∧
      (update_project_file now keys).project.last_build = .dt now ∧
      (update_project_file now keys).project.name = keys.project.name ∧
      (update_project_file now keys).project.version = keys.project.version ∧
      (update_project_file now keys).project.description = keys.project.description ∧
      (update_project_file now keys).project.readme = keys.project.readme ∧
      (update_project_file now keys).project.std = keys.project.std ∧
      (update_project_file now keys).dependencies = keys.dependencies ∧
      (update_project_file now keys).cmeow = keys.cmeow ∧
      (update_project_file now keys).cmake = keys.cmake) := by
  constructor
  · intro h
    simp [buildCommand, hn, hl, hs, h]
  · intro h
    refine ⟨?_, rfl, rfl, rfl, rfl, rfl, rfl, rfl, rfl, rfl⟩
    simp [buildCommand, hn, hl, hs, h]

/-- C3, witness for `build_provenance_update`: on `c1_exe_state` (markers and
executable present, all files older than the recorded last build) the second
run reports "files unchanged" and does not rewrite the configuration. -/
theorem build_provenance_update_witness :
    buildCommand c1_exe_state .debug c3_keys 50 =
      .done false false true Option.none := by
  have h := (build_provenance_update c1_exe_state .debug c3_keys 50 "app" 10
    rfl rfl (by decide)).1 (by decide)
  simpa using h

/-- C6: the code contradicts the claim (and the method's own name):
`BuildType.opposite` as written returns `DEBUG` for `DEBUG` and `RELEASE`
for `RELEASE` — the identity relation, with both members as fixed points —
instead of swapping the two profiles. -/
theorem opposite_is_identity :
    BuildType.opposite BuildType.debug = BuildType.debug ∧
    BuildType.opposite BuildType.release = BuildType.release := by
  decide

/-- C9: the language-standard value 98 is rejected with the "is unsupported"
message listing the supported choices, 19 with the distinct generic
"is invalid" message, and both failures exit with `INVALID_KEY_VAL`. -/
theorem std_unsupported_vs_invalid :
    StdVersionValidator.validate "std" (.int 98) "project."
      = .error (.report .INVALID_KEY_VAL (.stdUnsupported "project.std" (.int 98))) ∧
    StdVersionValidator.validate "std" (.int 19) "project."
      = .error (.report .INVALID_KEY_VAL (.stdInvalid "project.std" (.int 19))) ∧
    Msg.text (.stdUnsupported "project.std" (.int 98))
      = "`.cmeow-project`: key `project.std`: std version <ylw>98</ylw> is unsupported."
        ++ " choose from (<ylw>11</ylw>, <ylw>14</ylw>, <ylw>17</ylw>, <ylw>20</ylw>)" ∧
    Msg.text (.stdInvalid "project.std" (.int 19))
      = "`.cmeow-project`: key `project.std`: std version <ylw>19</ylw> is invalid."
        ++ " choose from (<ylw>11</ylw>, <ylw>14</ylw>, <ylw>17</ylw>, <ylw>20</ylw>)" ∧
    Msg.text (.stdUnsupported "project.std" (.int 98))
      ≠ Msg.text (.stdInvalid "project.std" (.int 19)) := by
  refine ⟨by decide, by decide, ?_, ?_, by decide⟩ <;> decide

/-- C10, counterexample to "every other field validator performs a type check
and fails on mismatched input": the description field's validator
(`StrValidator`, not the readme validator) accepts the mismatched integer 5
without reporting any failure — `validate_type`'s fallback conversion
`str(5)` succeeds, returning `"5"`. -/
theorem str_validator_coerces_counterexample :
    StrValidator.validate "description" (.int 5) "project." = .ok (.str "5") := by
  decide

/-- C10, amended: the readme validator accepts every input value, returning
`str(value)`, with no failure path at all; the other validators do invoke the
shared type check, but the string-targeted ones (e.g. description's) likewise
coerce mismatched primitive input via `str()` without failing — only the
validators with stricter targets (language standard, semantic version,
last-build datetime) fail on mismatched input. -/
theorem readme_validator_accepts_all :
    (∀ k v kp, ReadmeValidator.validate k v kp = Except.ok (.str (pyStr v))) ∧
    StrValidator.validate "description" (.int 5) "project." = .ok (.str "5") ∧
    StdVersionValidator.validate "std" (.str "abc") "project."
      = .error (.report .INVALID_KEY_TYPE
          (.invalidType "project.std" (some std_err_msg) .pint (.str "abc"))) ∧
    ProjectVersionValidator.validate "version" (.str "abc") "project."
      = .error (.report .INVALID_KEY_TYPE
          (.invalidType "project.version" Option.none .semverStr (.str "abc"))) ∧
    DatetimeValidator.validate "last_build" (.int 7) "project."
      = .error (.uncaught "TypeError") :=
  ⟨fun _ _ _ => rfl, by decide, by decide, by decide, by decide⟩


/-- C4, counterexample: the claim as stated is false on the code.  `c4_input`
is missing two required keys, `project.std` and `cmeow.version`, yet parsing
reports exactly one failure whose message lists only `project.std`: the
`perr` inside the first group's `_check_missing_keys` exits the process
before the `cmeow` group is ever parsed, so the message is a strict subset of
the missing dotted key names. -/
theorem missing_keys_cross_group_counterexample :
    (Keys.from_toml c4_input).2
      = .error (.report .MISSING_KEYS (.missingKeys ["project.std"])) ∧
    "std" ∈ required_fields project_hints ∧
    "version" ∈ required_fields cmeow_hints ∧
    "cmeow.version" ∉ ["project.std"] := by
  decide

/-- C4, amended: within a single group (here the `project` group, processed
against an arbitrary input whose present keys all validated), parsing fails
with exactly one reported failure — a single `perr` with exit code
`MISSING_KEYS` — whose message lists every missing required dotted key of
that group; missing keys of groups processed later are not included (see the
counterexample). -/
theorem missing_keys_single_group_report (kvs : List (String × TomlV)) (w : List String)
    (p : KDict)
    (hok : groupFromTomlAux (field_names project_hints) projectValidator kvs [] = (w, .ok p))
    (hmiss : ((required_fields project_hints).filter fun k => !(kvs.any fun e => e.1 = k)) ≠ []) :
    (ProjectKeys.from_toml kvs).2 =
      .error (.report .MISSING_KEYS (.missingKeys
        (((required_fields project_hints).filter fun k => !(kvs.any fun e => e.1 = k)).map
          fun k => "project." ++ k))) := by
  have hcont := groupAux_ok_contains (field_names project_hints) projectValidator kvs [] w p hok
  simp only [ProjectKeys.from_toml, hok]
  simp only [projectPost]
  set keys := if dictContains p "last_build" then p else dictSet p "last_build" (.dt dt_min_utc)
    with hkeys
  have hck : ∀ k, (field_names project_hints).contains k = true → k ≠ "last_build" →
      dictContains keys k = (kvs.any fun e => e.1 = k) := by
    intro k hk hne
    have h1 : dictContains keys k = dictContains p k := by
      rw [hkeys]
      by_cases hlb : dictContains p "last_build"
      · rw [if_pos hlb]
      · rw [if_neg hlb, dictContains_set]
        have hd : decide ("last_build" = k) = false := decide_eq_false fun hh => hne hh.symm
        simp [hd]
    rw [h1, hcont k hk]
    simp [dictContains]
  have hmeq : ((required_fields project_hints).filter fun k => !(dictContains keys k))
      = ((required_fields project_hints).filter fun k => !(kvs.any fun e => e.1 = k)) := by
    apply List.filter_congr
    intro k hk
    have hk3 : k = "name" ∨ k = "version" ∨ k = "std" := by
      have hr : required_fields project_hints = ["name", "version", "std"] := rfl
      rw [hr] at hk
      simpa using hk
    rcases hk3 with rfl | rfl | rfl
    · rw [hck _ (by decide) (by decide)]
    · rw [hck _ (by decide) (by decide)]
    · rw [hck _ (by decide) (by decide)]
  have hcheck : check_missing_keys project_hints keys "project."
      = some (.report .MISSING_KEYS (.missingKeys
          (((required_fields project_hints).filter fun k => !(kvs.any fun e => e.1 = k)).map
            fun k => "project." ++ k))) := by
    simp only [check_missing_keys]
    rw [hmeq]
    rcases hcase : ((required_fields project_hints).filter fun k => !(kvs.any fun e => e.1 = k))
      with _ | ⟨a, l⟩
    · exact absurd hcase hmiss
    · simp [List.isEmpty]
  simp only [hcheck]

/-- C4, witness for `missing_keys_single_group_report`: a project table
providing only `name` fails once, listing both `project.version` and
`project.std`. -/
theorem missing_keys_single_group_report_witness :
    (ProjectKeys.from_toml [("name", TomlV.str "app")]).2
      = .error (.report .MISSING_KEYS (.missingKeys ["project.version", "project.std"])) := by
  have h := missing_keys_single_group_report [("name", .str "app")] []
    [("name", .str "app")] (by decide) (by decide)
  exact h

/-- C5, counterexample: the claim as stated is false on the code.  `c5_input`
matches the declared schema (`description` is optional) and parses
successfully, but serializing the parsed configuration yields a structural
mapping with a `description` field (holding `None`) that the input's project
group never contained — not the same field names. -/
theorem roundtrip_adds_null_fields_counterexample :
    (Keys.from_toml c5_input).2 = .ok c5_keys ∧
    (c5_keys.project.to_toml.any fun e => e.1 = "description") = true ∧
    (c5_proj_input.any fun e => e.1 = "description") = false ∧
    Keys.to_toml c5_keys ≠ c5_input := by
  decide

/-- C5, amended: the parse-then-serialize round trip is the identity on
inputs that explicitly provide every declared field — including the optional
ones and `last_build` — with well-typed valid values; inputs omitting
optional fields re-serialize with those fields added (null for
`description`/`readme`, the sentinel for `last_build`), as the
counterexample shows. -/
theorem roundtrip_full_input (lb : Int) (nm ver desc rd cmv ckv : String) (std : Int)
    (hver : semverParses ver = true)
    (hcmv : semverParses cmv = true)
    (hcmv2 : cmv ∈ cmeow_versions)
    (hstd1 : std ∉ unsupported_stds)
    (hstd2 : std ∈ supported_stds) :
    Keys.from_toml
        [("project", .table [("last_build", .dt lb), ("name", .str nm), ("version", .str ver),
                             ("description", .str desc), ("readme", .str rd),
                             ("std", .int std)]),
         ("dependencies", .table []),
         ("cmeow", .table [("version", .str cmv)]),
         ("cmake", .table [("version", .str ckv)])]
      = ([], .ok
          { project := { last_build := .dt lb, name := .str nm, version := .str ver,
                         description := .str desc, readme := .str rd, std := .int std },
            dependencies := {},
            cmeow := { version := .str cmv },
            cmake := { version := .str ckv } }) ∧
    Keys.to_toml
        { project := { last_build := .dt lb, name := .str nm, version := .str ver,
                       description := .str desc, readme := .str rd, std := .int std },
          dependencies := {},
          cmeow := { version := .str cmv },
          cmake := { version := .str ckv } }
      = [("project", .table [("last_build", .dt lb), ("name", .str nm), ("version", .str ver),
                             ("description", .str desc), ("readme", .str rd),
                             ("std", .int std)]),
         ("dependencies", .table []),
         ("cmeow", .table [("version", .str cmv)]),
         ("cmake", .table [("version", .str ckv)])] := by
  have h1 : projectValidator "last_build" (.dt lb) = .ok (.dt lb) := rfl
  have h2 : projectValidator "name" (.str nm) = .ok (.str nm) := rfl
  have h3 : projectValidator "version" (.str ver) = .ok (.str ver) := by
    simp [projectValidator, ProjectVersionValidator.validate, validate_type, isinstance,
      pyConvert, hver]
  have h4 : projectValidator "description" (.str desc) = .ok (.str desc) := rfl
  have h5 : projectValidator "readme" (.str rd) = .ok (.str rd) := rfl
  have h6 : projectValidator "std" (.int std) = .ok (.int std) := by
    simp [projectValidator, StdVersionValidator.validate, validate_type, isinstance, intMem,
      hstd1, hstd2, Bind.bind, Except.bind]
  have hproj : ProjectKeys.from_toml
      [("last_build", .dt lb), ("name", .str nm), ("version", .str ver),
       ("description", .str desc), ("readme", .str rd), ("std", .int std)]
      = ([], .ok { last_build := .dt lb, name := .str nm, version := .str ver,
                   description := .str desc, readme := .str rd, std := .int std }) := by
    have haux : groupFromTomlAux (field_names project_hints) projectValidator
        [("last_build", .dt lb), ("name", .str nm), ("version", .str ver),
         ("description", .str desc), ("readme", .str rd), ("std", .int std)] []
        = ([], .ok [("last_build", .dt lb), ("name", .str nm), ("version", .str ver),
                    ("description", .str desc), ("readme", .str rd), ("std", .int std)]) := by
      simp [groupFromTomlAux, h1, h2, h3, h4, h5, h6, dictSet, dictContains, field_names,
        project_hints]
    rw [ProjectKeys.from_toml, haux]
    rfl
  have hcwv : cmeowValidator "version" (.str cmv) = .ok (.str cmv) := by
    simp [cmeowValidator, CmeowVersionValidator.validate, validate_type, isinstance,
      pyConvert, hcmv, hcmv2, Bind.bind, Except.bind]
  have hcw : CmeowKeys.from_toml [("version", .str cmv)]
      = ([], .ok { version := .str cmv }) := by
    have haux : groupFromTomlAux (field_names cmeow_hints) cmeowValidator
        [("version", .str cmv)] [] = ([], .ok [("version", .str cmv)]) := by
      simp [groupFromTomlAux, hcwv, dictSet, dictContains, field_names, cmeow_hints]
    rw [CmeowKeys.from_toml, haux]
    rfl
  have hck : CmakeKeys.from_toml [("version", .str ckv)]
      = ([], .ok { version := .str ckv }) := rfl
  have hKaux : Keys.fromTomlAux
      [("project", .table [("last_build", .dt lb), ("name", .str nm), ("version", .str ver),
                           ("description", .str desc), ("readme", .str rd),
                           ("std", .int std)]),
       ("dependencies", .table []),
       ("cmeow", .table [("version", .str cmv)]),
       ("cmake", .table [("version", .str ckv)])] KeysDict.init
      = ([], .ok
          { project := some { last_build := .dt lb, name := .str nm, version := .str ver,
                              description := .str desc, readme := .str rd, std := .int std },
            dependencies := some {},
            cmeow := some { version := .str cmv },
            cmake := some { version := .str ckv } }) := by
    simp [Keys.fromTomlAux, hproj, hcw, hck, DependenciesKeys.from_toml, field_names,
      keys_hints, KeysDict.init]
  refine ⟨?_, rfl⟩
  rw [Keys.from_toml, hKaux]
  rfl

/-- C5, witness for `roundtrip_full_input` at concrete field values. -/
theorem roundtrip_full_input_witness :
    Keys.from_toml
        [("project", .table [("last_build", .dt 100), ("name", .str "app"),
                             ("version", .str "0.1.0"), ("description", .str "demo"),
                             ("readme", .str "README.md"), ("std", .int 17)]),
         ("dependencies", .table []),
         ("cmeow", .table [("version", .str "0.1.0")]),
         ("cmake", .table [("version", .str "3.25")])]
      = ([], .ok
          { project := { last_build := .dt 100, name := .str "app", version := .str "0.1.0",
                         description := .str "demo", readme := .str "README.md",
                         std := .int 17 },
            dependencies := {},
            cmeow := { version := .str "0.1.0" },
            cmake := { version := .str "3.25" } }) ∧
    Keys.to_toml
        { project := { last_build := .dt 100, name := .str "app", version := .str "0.1.0",
                       description := .str "demo", readme := .str "README.md",
                       std := .int 17 },
          dependencies := {},
          cmeow := { version := .str "0.1.0" },
          cmake := { version := .str "3.25" } }
      = [("project", .table [("last_build", .dt 100), ("name", .str "app"),
                             ("version", .str "0.1.0"), ("description", .str "demo"),
                             ("readme", .str "README.md"), ("std", .int 17)]),
         ("dependencies", .table []),
         ("cmeow", .table [("version", .str "0.1.0")]),
         ("cmake", .table [("version", .str "3.25")])] :=
  roundtrip_full_input 100 "app" "0.1.0" "demo" "README.md" "0.1.0" "3.25" 17
    (by decide) (by decide) (by decide) (by decide) (by decide)

/-- C7, counterexample: the claim as stated is false on the code.
`last_build` is classified optional (its hint is the nullable union
`datetime | None`), and it is absent from `c7_input`, yet the parsed value it
receives is the minimal-UTC sentinel datetime, not the null default the
claim promises for every absent optional field
(`util/_keys.py` lines 174-175). -/
theorem last_build_default_not_null_counterexample :
    "last_build" ∈ optional_fields project_hints ∧
    (ProjectKeys.from_toml c7_input).2 = .ok c7_keys ∧
    c7_keys.last_build = .dt dt_min_utc ∧
    TomlV.dt dt_min_utc ≠ TomlV.pyNone := by
  decide

/-- C7, amended: a declared field is classified optional iff its declared
type is a union containing the null type, and required otherwise; an
optional field absent from the input receives the null default — except
`last_build`, which `ProjectKeys.from_toml` instead defaults to the
minimal-UTC "never built" sentinel. -/
theorem field_classification_and_defaults (kvs : List (String × TomlV)) (w : List String)
    (k : ProjectKeys) (hok : ProjectKeys.from_toml kvs = (w, .ok k)) :
    (∀ fh ∈ project_hints,
        (fh.1 ∈ optional_fields project_hints ↔ isNullableUnion fh.2 = true) ∧
        (fh.1 ∈ required_fields project_hints ↔ isNullableUnion fh.2 = false)) ∧
    ((∀ e ∈ kvs, e.1 ≠ "description") → k.description = .pyNone) ∧
    ((∀ e ∈ kvs, e.1 ≠ "readme") → k.readme = .pyNone) ∧
    ((∀ e ∈ kvs, e.1 ≠ "last_build") → k.last_build = .dt dt_min_utc) := by
  rcases haux : groupFromTomlAux (field_names project_hints) projectValidator kvs []
    with ⟨w0, r⟩
  rw [ProjectKeys.from_toml, haux] at hok
  cases r with
  | error e => simp at hok
  | ok p =>
      simp only [Prod.mk.injEq] at hok
      obtain ⟨hw0, hpost⟩ := hok
      simp only [projectPost] at hpost
      set keys := if dictContains p "last_build" then p else dictSet p "last_build" (.dt dt_min_utc)
        with hkeys
      cases hck : check_missing_keys project_hints keys "project." with
      | some e => rw [hck] at hpost; simp at hpost
      | none =>
          rw [hck] at hpost
          cases hb : buildProjectKeys keys with
          | none => rw [hb] at hpost; simp at hpost
          | some k2 =>
              rw [hb] at hpost
              have hk2 : k2 = k := by simpa using hpost
              subst hk2
              -- extract the record shape from buildProjectKeys
              rw [buildProjectKeys] at hb
              cases hn : dictGet? keys "name" with
              | none => rw [hn] at hb; simp at hb
              | some nmv =>
                cases hv : dictGet? keys "version" with
                | none => rw [hn, hv] at hb; simp at hb
                | some verv =>
                  cases hs : dictGet? keys "std" with
                  | none => rw [hn, hv, hs] at hb; simp at hb
                  | some stdv =>
                    rw [hn, hv, hs] at hb
                    simp only [Option.some.injEq] at hb
                    refine ⟨by decide, ?_, ?_, ?_⟩
                    · intro habs
                      have hget : dictGet? keys "description" = dictGet? p "description" := by
                        rw [hkeys]
                        by_cases hlb : dictContains p "last_build"
                        · rw [if_pos hlb]
                        · rw [if_neg hlb, dictGet?_set_ne _ _ _ _ (by decide)]
                      have habs2 := groupAux_ok_get_absent (field_names project_hints)
                        projectValidator "description" kvs [] w0 p haux habs
                      rw [← hb]
                      show (dictGet? keys "description").getD .pyNone = .pyNone
                      rw [hget, habs2]
                      rfl
                    · intro habs
                      have hget : dictGet? keys "readme" = dictGet? p "readme" := by
                        rw [hkeys]
                        by_cases hlb : dictContains p "last_build"
                        · rw [if_pos hlb]
                        · rw [if_neg hlb, dictGet?_set_ne _ _ _ _ (by decide)]
                      have habs2 := groupAux_ok_get_absent (field_names project_hints)
                        projectValidator "readme" kvs [] w0 p haux habs
                      rw [← hb]
                      show (dictGet? keys "readme").getD .pyNone = .pyNone
                      rw [hget, habs2]
                      rfl
                    · intro habs
                      have habs2 := groupAux_ok_get_absent (field_names project_hints)
                        projectValidator "last_build" kvs [] w0 p haux habs
                      have hnone : dictGet? p "last_build" = Option.none := by
                        rw [habs2]
                        rfl
                      have hfalse := dictContains_false_of_get_none p "last_build" hnone
                      have hget : dictGet? keys "last_build" = some (.dt dt_min_utc) := by
                        rw [hkeys, hfalse]
                        simp only [Bool.false_eq_true, if_false]
                        exact dictGet?_set_self p "last_build" (.dt dt_min_utc)
                      rw [← hb]
                      show (dictGet? keys "last_build").getD .pyNone = .dt dt_min_utc
                      rw [hget]
                      rfl

/-- C7, witness for `field_classification_and_defaults` at `c7_input`. -/
theorem field_classification_and_defaults_witness :
    c7_keys.description = .pyNone ∧ c7_keys.readme = .pyNone ∧
    c7_keys.last_build = .dt dt_min_utc := by
  have h := field_classification_and_defaults c7_input [] c7_keys (by decide)
  exact ⟨h.2.1 (by decide), h.2.2.1 (by decide), h.2.2.2 (by decide)⟩

/-- C8: parsing an input containing unrecognized keys succeeds whenever the
input restricted to the recognized keys parses successfully, produces the
same typed value (each unrecognized key is discarded, never stored), and
prints exactly one warning per unrecognized key, in input order. -/
theorem unrecognized_keys_warn_and_discard (kvs : List (String × TomlV)) (k : ProjectKeys)
    (hok : ProjectKeys.from_toml (kvs.filter fun e => (field_names project_hints).contains e.1)
      = ([], .ok k)) :
    ProjectKeys.from_toml kvs =
      ((kvs.filter fun e => !((field_names project_hints).contains e.1)).map
        fun e => unrecognized_warning e.1,
       .ok k) := by
  rcases haux : groupFromTomlAux (field_names project_hints) projectValidator
      (kvs.filter fun e => (field_names project_hints).contains e.1) [] with ⟨w0, r⟩
  rw [ProjectKeys.from_toml, haux] at hok
  cases r with
  | error e => simp at hok
  | ok p =>
      simp only [Prod.mk.injEq] at hok
      obtain ⟨hw0, hpost⟩ := hok
      subst hw0
      have hfull := groupAux_filter (field_names project_hints) projectValidator kvs [] p haux
      rw [ProjectKeys.from_toml, hfull]
      show (_, projectPost p) = _
      rw [hpost]

/-- C8, witness for `unrecognized_keys_warn_and_discard` at `c8_input`
(two unrecognized keys interleaved with the valid ones). -/
theorem unrecognized_keys_warn_and_discard_witness :
    ProjectKeys.from_toml c8_input =
      (["ignoring unrecognized key in `.cmeow-project`: wibble",
        "ignoring unrecognized key in `.cmeow-project`: zap"], .ok c7_keys) := by
  have h := unrecognized_keys_warn_and_discard c8_input c7_keys (by decide)
  exact h

end Cmeow
